import Mathlib

set_option maxHeartbeats 1000000

namespace ElectricMeterScraper

/-! # Shallow embedding of the ElectricMeterScraper extraction and
normalization core.

Python strings are modelled as lists of characters (`Str`), Python's
string operations used by the scrapers (`lower`, `split`, `replace`,
`strip`, `in`, `int(...)`) are modelled as structurally recursive
functions on `Str`, and each scraper routine named by the claims is
translated into a pure function over an explicit page-state record. -/

/-- Python strings, modelled as lists of characters. -/
abbrev Str := List Char

/-- The ASCII whitespace characters removed by Python `str.strip()`. -/
def pyIsWs (c : Char) : Bool :=
  c = ' ' || c = '\t' || c = '\n' || c = '\r' || c = '\x0b' || c = '\x0c'

/-- Python `str.lower()` restricted to ASCII case mapping. -/
def pyLower (s : Str) : Str := s.map Char.toLower

/-- Python `str.strip()` with no argument: drop leading and trailing
whitespace. -/
def pyStrip (s : Str) : Str :=
  ((s.dropWhile pyIsWs).reverse.dropWhile pyIsWs).reverse

/-- Python `str.split(sep)` for a one-character separator `a`: split at
every occurrence of `a`, keeping empty segments. -/
def split1 (a : Char) : Str → List Str
  | [] => [[]]
  | c :: rest =>
    if c = a then [] :: split1 a rest
    else
      match split1 a rest with
      | [] => [[c]]
      | p :: ps => (c :: p) :: ps

/-- Python `str.split(sep)` for a two-character separator `[a, b]`:
split at each leftmost non-overlapping occurrence, keeping empty
segments.  The scrapers split on the literals `"of"` and `"gb"`. -/
def split2 (a b : Char) : Str → List Str
  | [] => [[]]
  | [c] => [[c]]
  | c1 :: c2 :: rest =>
    if c1 = a ∧ c2 = b then [] :: split2 a b rest
    else
      match split2 a b (c2 :: rest) with
      | [] => [[c1]]
      | p :: ps => (c1 :: p) :: ps

/-- Python `str.replace(old, new)` for a two-character `old = [a, b]`:
replace each leftmost non-overlapping occurrence by `new`.  The Imagine
scraper uses `.replace('gb', '')`. -/
def replace2 (a b : Char) (new : Str) : Str → Str
  | [] => []
  | [c] => [c]
  | c1 :: c2 :: rest =>
    if c1 = a ∧ c2 = b then new ++ replace2 a b new rest
    else c1 :: replace2 a b new (c2 :: rest)

/-- Python substring membership `pat in s`. -/
def containsSub (pat : Str) : Str → Bool
  | [] => pat.isEmpty
  | c :: rest => pat.isPrefixOf (c :: rest) || containsSub pat rest

/-- Body of a Python integer literal after an optional sign: digits with
single underscores strictly between digits.  `pyDigitsRest` checks the
text that may follow a first digit. -/
def pyDigitsRest : Str → Bool
  | [] => true
  | c :: rest =>
    if c.isDigit then pyDigitsRest rest
    else if c = '_' then
      match rest with
      | [] => false
      | d :: rest2 => d.isDigit && pyDigitsRest rest2
    else false

/-- Digit-sequence check for Python `int()`: non-empty, starts with a
digit, single underscores only between digits. -/
def pyDigits : Str → Bool
  | [] => false
  | c :: rest => c.isDigit && pyDigitsRest rest

/-- Decimal value of a digit sequence, underscores ignored. -/
def digitsVal (s : Str) : Nat :=
  s.foldl (fun acc c => if c.isDigit then acc * 10 + (c.toNat - 48) else acc) 0

/-- Python `int(s)`: strip surrounding whitespace, then an optional sign
followed by digits (underscores allowed between digits); `none` models
the `ValueError` raised on any other input. -/
def pyInt (s : Str) : Option Int :=
  match pyStrip s with
  | [] => none
  | c :: rest =>
    if c = '+' then (if pyDigits rest then some (digitsVal rest) else none)
    else if c = '-' then (if pyDigits rest then some (-(digitsVal rest : Int)) else none)
    else (if pyDigits (c :: rest) then some (digitsVal (c :: rest)) else none)

/-- The usage-string parsing block of `imagineScraper.main`
(imagineScraper.py lines 274-283):
`parts = usage_string.lower().split('of')`,
`used_part = parts[0].replace('gb', '').strip()`,
`total_part = parts[1].split('gb')[0].strip()`, then `int(...)` on both.
Any exception of that block (no second part, failed conversion) is
caught by the caller; it is modelled as `none`. -/
def parseBasePlanUsage (s : Str) : Option (Int × Int) :=
  match split2 'o' 'f' (pyLower s) with
  | p0 :: p1 :: _ =>
    let usedPart := pyStrip (replace2 'g' 'b' [] p0)
    let totalPart := pyStrip ((split2 'g' 'b' p1).headD [])
    match pyInt usedPart, pyInt totalPart with
    | some u, some t => some (u, t)
    | _, _ => none
  | _ => none

/-- JSON-like values appearing in the published payloads. -/
inductive JVal where
  | str (s : Str)
  | int (n : Int)
deriving DecidableEq, Repr

/-- Association-list lookup; the Python dicts built by the scrapers are
insertion-ordered string-keyed maps. -/
def lookupAssoc {α : Type} (k : String) : List (String × α) → Option α
  | [] => none
  | (k2, v) :: rest => if k2 = k then some v else lookupAssoc k rest

/-- The dictionary entries the parsing block of `imagineScraper.main`
leaves in `mqtt_payload`, with the statement order of the source
(imagineScraper.py lines 274-283) preserved: `total_part` is computed
from `parts[1]` before either conversion runs (an IndexError here
precedes both dict assignments), then
`mqtt_payload['base_plan_used_gb'] = int(used_part)` runs before
`mqtt_payload['base_plan_total_gb'] = int(total_part)`, so a ValueError
from the second conversion leaves the first key already assigned; the
exception ends the block and the keys assigned so far remain. -/
def imagineUsageKeys (s : Str) : List (String × JVal) :=
  match split2 'o' 'f' (pyLower s) with
  | p0 :: p1 :: _ =>
    let usedPart := pyStrip (replace2 'g' 'b' [] p0)
    let totalPart := pyStrip ((split2 'g' 'b' p1).headD [])
    match pyInt usedPart with
    | none => []
    | some u =>
      match pyInt totalPart with
      | none => [("base_plan_used_gb", JVal.int u)]
      | some t =>
          [("base_plan_used_gb", JVal.int u), ("base_plan_total_gb", JVal.int t)]
  | _ => []

/-- The Imagine MQTT payload assembly of `imagineScraper.main`
(imagineScraper.py lines 271-305): when the scraped data has a
`"Base Plan Usage"` entry, the parsing block contributes the keys it
managed to assign; the timestamp injection plus the
`publish_imagine_json` call (the returned boolean) happen only when
both numeric keys are present. -/
def buildImagineMqttPayload (basePlanUsage : Option Str) (ts : Str) :
    List (String × JVal) × Bool :=
  let p0 : List (String × JVal) :=
    match basePlanUsage with
    | none => []
    | some s => imagineUsageKeys s
  if (lookupAssoc "base_plan_used_gb" p0).isSome &&
      (lookupAssoc "base_plan_total_gb" p0).isSome then
    (p0 ++ [("mqtt_timestamp", JVal.str ts)], true)
  else
    (p0, false)

/-! ## Spec-side vocabulary for the usage-string shape -/

/-- The whitespace characters the spec's "tolerant of inner whitespace"
may stand for (the ASCII whitespace of Python). -/
def wsChars : Str := [' ', '\t', '\n', '\r', '\x0b', '\x0c']

/-- The ten ASCII digits. -/
def digitChars : Str := ['0', '1', '2', '3', '4', '5', '6', '7', '8', '9']

/-- A possibly empty run of whitespace. -/
def SpecWs (w : Str) : Prop := ∀ c ∈ w, c ∈ wsChars

/-- A non-empty run of decimal digits. -/
def SpecDigits (d : Str) : Prop := d ≠ [] ∧ ∀ c ∈ d, c ∈ digitChars

/-- The spec shape `"<N>GB of <M> GB Used"`, case-insensitive and
tolerant of inner (and surrounding) whitespace: the string decomposes
into whitespace runs, the digits of N, a case variant of "GB", a case
variant of "of", the digits of M, a second "GB", and a case variant of
"Used"; `n` and `m` are the decimal values of the two digit runs. -/
def UsageShape (s : Str) (n m : Nat) : Prop :=
  ∃ w0 dN w1 g1 w2 o w3 dM w4 g2 w5 u w6 : Str,
    s = w0 ++ dN ++ w1 ++ g1 ++ w2 ++ o ++ w3 ++ dM ++ w4 ++ g2 ++ w5 ++ u ++ w6 ∧
    SpecWs w0 ∧ SpecDigits dN ∧ SpecWs w1 ∧ pyLower g1 = "gb".data ∧ SpecWs w2 ∧
    pyLower o = "of".data ∧ SpecWs w3 ∧ SpecDigits dM ∧ SpecWs w4 ∧
    pyLower g2 = "gb".data ∧ SpecWs w5 ∧ pyLower u = "used".data ∧ SpecWs w6 ∧
    digitsVal dN = n ∧ digitsVal dM = m

/-! ## USMS table extraction (usmsScraper.py `scrape_data_from_table`) -/

/-- One extracted hourly reading: `{"hour": ..., "consumption_kWh": ...}`
(usmsScraper.py line 73). -/
structure HourlyReading where
  hour : Str
  consumption_kWh : Str
deriving DecidableEq, Repr

/-- The rendered state of the consumption-table view as
`scrape_data_from_table` observes it.  `mainRows = none` models the main
table root being absent when the 10-unit wait expires (the
`TimeoutException` path); otherwise it carries the cell texts of each
`dxgvDataRow`.  `footerRow = none` models the footer table being absent
after its own wait, `some none` a footer table whose footer-row element
is missing, and `some (some cells)` the footer-row cell texts. -/
structure UsmsTablePage where
  mainRows : Option (List (List Str))
  footerRow : Option (Option (List Str))

/-- The row loop of `scrape_data_from_table` (usmsScraper.py lines
68-75): rows with exactly two cells yield a reading from the two cell
texts, all other rows are skipped. -/
def extractHourlyRows (rows : List (List Str)) : List HourlyReading :=
  rows.filterMap fun cols =>
    if cols.length == 2 then
      some (⟨cols.headD [], (cols.drop 1).headD []⟩ : HourlyReading)
    else none

/-- The `"Total units:"` label searched for in the footer cell. -/
def totalUnitsLabel : Str := "Total units:".data

/-- The footer-row handling of `scrape_data_from_table` (usmsScraper.py
lines 86-94): with exactly two cells, the second cell's text sets the
total when it contains `"Total units:"`, via
`text.split(":")[-1].strip()`; otherwise the total stays unset. -/
def extractFooterTotal (cols : List Str) : Option Str :=
  if cols.length == 2 then
    let t := (cols.drop 1).headD []
    if containsSub totalUnitsLabel t then
      some (pyStrip ((split1 ':' t).getLastD []))
    else none
  else none

/-- `scrape_data_from_table` (usmsScraper.py lines 52-101): the whole
body sits in one `try`; a missing main table returns `([], None)`, and a
failure at the footer stage returns the rows collected so far with the
total unset. -/
def scrape_data_from_table (page : UsmsTablePage) : List HourlyReading × Option Str :=
  match page.mainRows with
  | none => ([], none)
  | some rows =>
    let hourly := extractHourlyRows rows
    match page.footerRow with
    | none => (hourly, none)
    | some none => (hourly, none)
    | some (some cols) => (hourly, extractFooterTotal cols)

/-- Spec-side reading of the footer contract: the text after the first
occurrence of the label, when the label occurs at all. -/
def valueAfterLabel (pat : Str) : Str → Option Str
  | [] => if pat.isEmpty then some [] else none
  | c :: rest =>
    if pat.isPrefixOf (c :: rest) then some ((c :: rest).drop pat.length)
    else valueAfterLabel pat rest

/-! ## USMS meter cards (usmsScraper.py `scrape_meter_data`,
`scrape_all_meters`; excel_exporter.py `export_usms_data`) -/

/-- The eleven labelled fields read from a meter card, in source order
(usmsScraper.py lines 116-128). -/
def meterFieldNames : List String :=
  ["Meter No", "Full Name", "Meter Status", "Address", "Kampong", "Mukim",
   "District", "Postcode", "Remaining Unit", "Remaining Balance", "Last Updated"]

/-- The rendered account page as the meter scrapers observe it:
whether the `MyFrame` iframe is reachable, whether the per-slot card
existence probes (`ASPxCardView1_DXDataCard0/1`) find an element, and
the text of each field element of each slot (`none` models a missing or
timed-out field element). -/
structure MeterPage where
  frameOk : Bool
  card0 : Bool
  card1 : Bool
  fieldText : Nat → String → Option Str

/-- `scrape_meter_data` (usmsScraper.py lines 103-152): each field is
looked up independently; a missing field yields a `None` value for that
field only; the meter type tag is appended last. -/
def scrape_meter_data (pg : MeterPage) (idx : Nat) : List (String × Option Str) :=
  (meterFieldNames.map fun f => (f, (pg.fieldText idx f).map pyStrip)) ++
    [("Meter Type",
      some (if idx = 0 then "Electricity".data else "Water".data))]

/-- `scrape_all_meters` (usmsScraper.py lines 154-212): when the iframe
is reachable, each slot whose existence probe succeeds contributes one
entry keyed by the lowercased meter name, with the script-execution
timestamp appended; an unreachable iframe yields the empty result. -/
def scrape_all_meters (pg : MeterPage) (ts : Str) :
    List (String × List (String × Option Str)) :=
  if pg.frameOk then
    ((if pg.card0 then [(0, "electricity")] else []) ++
     (if pg.card1 then [(1, "water")] else [])).map fun (p : Nat × String) =>
      (p.2, scrape_meter_data pg p.1 ++ [("Script Execution Time", some ts)])
  else []

/-- Python truthiness of the optional total-consumption string. -/
def pyTruthyOptStr : Option Str → Bool
  | none => false
  | some s => !s.isEmpty

/-- The sheet assembly of `export_usms_data` (excel_exporter.py lines
130-176), reduced to the sheet names of the produced workbook's
`sheets_config`; `none` models the early `return None` when there is
neither hourly data nor meter data. -/
def export_usms_sheets (hourly : List HourlyReading) (total : Option Str)
    (dyn : List (String × Option Str))
    (meters : List (String × List (String × Option Str))) :
    Option (List String) :=
  if hourly.isEmpty && meters.isEmpty then none
  else some
    ((if pyTruthyOptStr total || !dyn.isEmpty then ["Account Summary"] else []) ++
     (if (lookupAssoc "electricity" meters).isSome then ["Electricity Meter"] else []) ++
     (if (lookupAssoc "water" meters).isSome then ["Water Meter"] else []))

/-! ## The V2 variant (usmsScraperV2.py) -/

/-- `scrape_meter_data` of usmsScraperV2.py (lines 105-155): the same
selectors and per-field logic as V1. -/
def scrape_meter_data_v2 (pg : MeterPage) (idx : Nat) : List (String × Option Str) :=
  (meterFieldNames.map fun f => (f, (pg.fieldText idx f).map pyStrip)) ++
    [("Meter Type",
      some (if idx = 0 then "Electricity".data else "Water".data))]

/-- `scrape_data_from_table` of usmsScraperV2.py (lines 52-103): the
same waits and row iteration as V1, but every two-cell row yields the
mock reading `("Hour i+1", "0.000")` built from the enumeration index
`i` over all rows, and a two-cell footer yields the mock total
`"0.000"` without reading the cell text. -/
def scrape_data_from_table_v2 (page : UsmsTablePage) :
    List HourlyReading × Option Str :=
  match page.mainRows with
  | none => ([], none)
  | some rows =>
    let hourly := rows.enum.filterMap fun p =>
      if p.2.length == 2 then
        some (⟨"Hour ".data ++ (Nat.repr (p.1 + 1)).data, "0.000".data⟩ : HourlyReading)
      else none
    match page.footerRow with
    | none => (hourly, none)
    | some none => (hourly, none)
    | some (some cols) =>
      (hourly, if cols.length == 2 then some "0.000".data else none)

/-! ## MQTT configuration loading (mqtt_publisher.py) -/

/-- JSON primitive values, enough for the credential objects the config
loader inspects. -/
inductive JsonPrim where
  | str (s : String)
  | num (n : Int)
  | bool (b : Bool)
  | null
deriving DecidableEq, Repr

/-- The states of `credentials.json` as `load_mqtt_config` can meet
them: missing file (`FileNotFoundError`), undecodable JSON
(`JSONDecodeError`), or parsed content.  Top-level values are modelled
as JSON objects of primitives, the only shape the configuration claims
involve. -/
inductive CredFile where
  | missing
  | badJson
  | ok (creds : List (String × List (String × JsonPrim)))

/-- The keys `load_mqtt_config` requires inside the `"mqtt"` object
(mqtt_publisher.py line 248). -/
def requiredMqttKeys : List String :=
  ["broker", "port", "username", "password", "base_topic"]

/-- `load_mqtt_config` (mqtt_publisher.py lines 233-262): a missing
file, undecodable JSON, a missing or empty (falsy) `"mqtt"` object, or
any missing required key all yield `None`. -/
def load_mqtt_config : CredFile → Option (List (String × JsonPrim))
  | .missing => none
  | .badJson => none
  | .ok creds =>
    match lookupAssoc "mqtt" creds with
    | none => none
    | some kvs =>
      if kvs.isEmpty then none
      else if requiredMqttKeys.all fun k => (lookupAssoc k kvs).isSome then some kvs
      else none

/-- `test_mqtt_connection` (mqtt_publisher.py lines 264-304): without a
loaded configuration it returns `False` before any network activity;
with one it makes a single connection attempt whose outcome is the
environment's.  The second component counts connection attempts. -/
def test_mqtt_connection (f : CredFile) (connectOk : Bool) : Bool × Nat :=
  match load_mqtt_config f with
  | none => (false, 0)
  | some _ => (connectOk, 1)

/-! ## The mqtt_publisher stubs (mqtt_publisher.py lines 306-376)

`publish_usms_json`, `publish_imagine_json`, `publish_service_json` and
`_parse_date_string` are declared with docstrings describing intended
behaviour, but each body is the single statement `pass`: the function
does nothing and returns Python's None.  The embeddings below record
that observable behaviour. -/

/-- `_parse_date_string` (mqtt_publisher.py lines 365-376, Python name
`_parse_date_string`): the body is `pass`, so every input — including
the docstring's own example "Expiry: 18 Jun 2025" — yields None; no ISO
date is ever produced. -/
def parse_date_string (date_string : Str) : Option Str := none

/-- The expiry-related fields that reach the published Imagine payload:
`publish_imagine_json` (mqtt_publisher.py lines 322-337) has the body
`pass`, so it attaches no fields at all to anything. -/
def imagineExpiryFields (raw : Str) : List (String × Str) := []

/-- The observable outcome of one publish call: how many MQTT messages
were sent and the function's return value (`none` models Python's
None). -/
structure PublishOutcome where
  messagesSent : Nat
  returned : Option Bool
deriving DecidableEq, Repr

/-- `publish_usms_json` (mqtt_publisher.py lines 306-320): the body is
`pass` — no MQTT client is created, no message is sent with any qos, no
acknowledgment is awaited, and the returned value is None. -/
def publish_usms_json (data_dict : List (String × JVal)) : PublishOutcome :=
  ⟨0, none⟩

/-- `publish_imagine_json` (mqtt_publisher.py lines 322-337): the body
is `pass`, with the same observable behaviour. -/
def publish_imagine_json (data_dict : List (String × JVal)) : PublishOutcome :=
  ⟨0, none⟩

/-- Python truthiness of the publisher's return value, as the callers
test it (`if publish_imagine_json(mqtt_payload):` in
imagineScraper.py line 298, `if publish_usms_json(mqtt_payload):` in
usmsScraper.py line 483): None is falsy, so the failure branch runs. -/
def pyTruthyReturn : Option Bool → Bool
  | none => false
  | some b => b

/-! ## Character-class and prefix facts -/

theorem not_mem_of_subset {l S : Str} {a : Char} (h : ∀ c ∈ l, c ∈ S) (hS : a ∉ S) :
    a ∉ l := fun hm => hS (h a hm)

theorem mem_ws_cases {c : Char} (hc : c ∈ wsChars) :
    c = ' ' ∨ c = '\t' ∨ c = '\n' ∨ c = '\r' ∨ c = '\x0b' ∨ c = '\x0c' := by
  simpa [wsChars] using hc

theorem mem_digit_cases {c : Char} (hc : c ∈ digitChars) :
    c = '0' ∨ c = '1' ∨ c = '2' ∨ c = '3' ∨ c = '4' ∨ c = '5' ∨ c = '6' ∨
      c = '7' ∨ c = '8' ∨ c = '9' := by
  simpa [digitChars] using hc

theorem ws_toLower {c : Char} (hc : c ∈ wsChars) : c.toLower = c := by
  rcases mem_ws_cases hc with rfl | rfl | rfl | rfl | rfl | rfl <;> decide

theorem digit_toLower {c : Char} (hc : c ∈ digitChars) : c.toLower = c := by
  rcases mem_digit_cases hc with rfl | rfl | rfl | rfl | rfl | rfl | rfl | rfl | rfl | rfl <;>
    decide

theorem ws_isWs {c : Char} (hc : c ∈ wsChars) : pyIsWs c = true := by
  rcases mem_ws_cases hc with rfl | rfl | rfl | rfl | rfl | rfl <;> decide

theorem digit_not_ws {c : Char} (hc : c ∈ digitChars) : pyIsWs c = false := by
  rcases mem_digit_cases hc with rfl | rfl | rfl | rfl | rfl | rfl | rfl | rfl | rfl | rfl <;>
    decide

theorem digit_isDigit {c : Char} (hc : c ∈ digitChars) : c.isDigit = true := by
  rcases mem_digit_cases hc with rfl | rfl | rfl | rfl | rfl | rfl | rfl | rfl | rfl | rfl <;>
    decide

theorem digit_ne_sign {c : Char} (hc : c ∈ digitChars) : c ≠ '+' ∧ c ≠ '-' := by
  rcases mem_digit_cases hc with rfl | rfl | rfl | rfl | rfl | rfl | rfl | rfl | rfl | rfl <;>
    exact ⟨by decide, by decide⟩

theorem isPrefixOf_exists {l₁ l₂ : Str} (h : l₁.isPrefixOf l₂ = true) :
    ∃ w, l₂ = l₁ ++ w := by
  induction l₁ generalizing l₂ with
  | nil => exact ⟨l₂, rfl⟩
  | cons a as ih =>
    cases l₂ with
    | nil => simp [List.isPrefixOf] at h
    | cons b bs =>
      simp only [List.isPrefixOf, Bool.and_eq_true, beq_iff_eq] at h
      obtain ⟨w, hw⟩ := ih h.2
      exact ⟨w, by simp [h.1, hw]⟩

/-! ## Splitter and replacer lemmas -/

theorem split1_ne_nil (a : Char) (l : Str) : split1 a l ≠ [] := by
  induction l with
  | nil => simp [split1]
  | cons c rest ih =>
    rw [split1]
    by_cases h : c = a
    · simp [h]
    · simp only [if_neg h]
      cases hs : split1 a rest <;> simp

theorem split2_ne_nil (a b : Char) (l : Str) : split2 a b l ≠ [] := by
  induction l with
  | nil => simp [split2]
  | cons c1 t ih =>
    cases t with
    | nil => simp [split2]
    | cons c2 rest =>
      rw [split2]
      by_cases h : c1 = a ∧ c2 = b
      · simp [h]
      · simp only [if_neg h]
        cases hs : split2 a b (c2 :: rest) <;> simp

theorem split1_not_mem {a : Char} {l : Str} (h : a ∉ l) : split1 a l = [l] := by
  induction l with
  | nil => rfl
  | cons c rest ih =>
    have hc : ¬ c = a := fun hca => h (hca ▸ List.mem_cons_self c rest)
    have hrest : a ∉ rest := fun hm => h (List.mem_cons_of_mem c hm)
    rw [split1, if_neg hc, ih hrest]

theorem split2_not_mem {a : Char} (b : Char) {l : Str} (h : a ∉ l) :
    split2 a b l = [l] := by
  induction l with
  | nil => rfl
  | cons c1 t ih =>
    cases t with
    | nil => rfl
    | cons c2 rest =>
      have hc : ¬ (c1 = a ∧ c2 = b) := fun hab => h (hab.1 ▸ List.mem_cons_self c1 _)
      have ht : a ∉ c2 :: rest := fun hm => h (List.mem_cons_of_mem c1 hm)
      rw [split2, if_neg hc, ih ht]

theorem split1_append {a : Char} {l₁ : Str} (l₂ : Str) (h : a ∉ l₁) :
    split1 a (l₁ ++ a :: l₂) = l₁ :: split1 a l₂ := by
  induction l₁ with
  | nil => simp [split1]
  | cons c rest ih =>
    have hc : ¬ c = a := fun hca => h (hca ▸ List.mem_cons_self c rest)
    have hrest : a ∉ rest := fun hm => h (List.mem_cons_of_mem c hm)
    rw [List.cons_append, split1, if_neg hc, ih hrest]

theorem split2_append {a b : Char} {l₁ : Str} (l₂ : Str) (h : a ∉ l₁) :
    split2 a b (l₁ ++ a :: b :: l₂) = l₁ :: split2 a b l₂ := by
  induction l₁ with
  | nil => simp [split2]
  | cons c rest ih =>
    have hc : ¬ c = a := fun hca => h (hca ▸ List.mem_cons_self c rest)
    have hrest : a ∉ rest := fun hm => h (List.mem_cons_of_mem c hm)
    obtain ⟨y, ys, hy⟩ : ∃ y ys, rest ++ a :: b :: l₂ = y :: ys := by
      cases hr : rest ++ a :: b :: l₂ with
      | nil => exact absurd hr (by simp)
      | cons y ys => exact ⟨y, ys, rfl⟩
    rw [List.cons_append, hy, split2, ← hy, ih hrest]
    have hcond : ¬ (c = a ∧ y = b) := fun hab => hc hab.1
    rw [if_neg hcond]

theorem replace2_not_mem {a : Char} (b : Char) (new : Str) {l : Str} (h : a ∉ l) :
    replace2 a b new l = l := by
  induction l with
  | nil => rfl
  | cons c1 t ih =>
    cases t with
    | nil => rfl
    | cons c2 rest =>
      have hc : ¬ (c1 = a ∧ c2 = b) := fun hab => h (hab.1 ▸ List.mem_cons_self c1 _)
      have ht : a ∉ c2 :: rest := fun hm => h (List.mem_cons_of_mem c1 hm)
      rw [replace2, if_neg hc, ih ht]

theorem replace2_append {a b : Char} (new : Str) {l₁ : Str} (l₂ : Str) (h : a ∉ l₁) :
    replace2 a b new (l₁ ++ a :: b :: l₂) = l₁ ++ new ++ replace2 a b new l₂ := by
  induction l₁ with
  | nil => simp [replace2]
  | cons c rest ih =>
    have hc : ¬ c = a := fun hca => h (hca ▸ List.mem_cons_self c rest)
    have hrest : a ∉ rest := fun hm => h (List.mem_cons_of_mem c hm)
    obtain ⟨y, ys, hy⟩ : ∃ y ys, rest ++ a :: b :: l₂ = y :: ys := by
      cases hr : rest ++ a :: b :: l₂ with
      | nil => exact absurd hr (by simp)
      | cons y ys => exact ⟨y, ys, rfl⟩
    rw [List.cons_append, hy, replace2, ← hy, ih hrest]
    have hcond : ¬ (c = a ∧ y = b) := fun hab => hc hab.1
    rw [if_neg hcond]
    simp

/-! ## Strip, lower and int lemmas -/

theorem not_mem_append_chars {a : Char} {l₁ l₂ : Str} (h₁ : a ∉ l₁) (h₂ : a ∉ l₂) :
    a ∉ l₁ ++ l₂ := by
  intro hm
  rcases List.mem_append.1 hm with h | h
  · exact h₁ h
  · exact h₂ h

theorem all_ws_append {w₁ w₂ : Str} (h₁ : ∀ c ∈ w₁, pyIsWs c = true)
    (h₂ : ∀ c ∈ w₂, pyIsWs c = true) : ∀ c ∈ w₁ ++ w₂, pyIsWs c = true := by
  intro c hc
  rcases List.mem_append.1 hc with h | h
  · exact h₁ c h
  · exact h₂ c h

theorem dropWhile_append_all {p : Char → Bool} {w : Str} (l : Str)
    (h : ∀ c ∈ w, p c = true) :
    List.dropWhile p (w ++ l) = List.dropWhile p l := by
  induction w with
  | nil => rfl
  | cons c rest ih =>
    rw [List.cons_append, List.dropWhile_cons, if_pos (h c (List.mem_cons_self c rest))]
    exact ih fun d hd => h d (List.mem_cons_of_mem c hd)

theorem pyStrip_sandwich {w1 w2 d : Str} (h1 : ∀ c ∈ w1, pyIsWs c = true)
    (h2 : ∀ c ∈ w2, pyIsWs c = true) (hne : d ≠ [])
    (hd : ∀ c ∈ d, pyIsWs c = false) :
    pyStrip (w1 ++ d ++ w2) = d := by
  obtain ⟨c, d', rfl⟩ := List.exists_cons_of_ne_nil hne
  unfold pyStrip
  rw [List.append_assoc, dropWhile_append_all _ h1, List.cons_append,
    List.dropWhile_cons, if_neg (by simp [hd c (List.mem_cons_self c d')])]
  obtain ⟨e, es, hrev⟩ : ∃ e es, (c :: d').reverse = e :: es := by
    cases hr : (c :: d').reverse with
    | nil => simp at hr
    | cons e es => exact ⟨e, es, rfl⟩
  have he : e ∈ c :: d' := by
    have h0 : e ∈ (c :: d').reverse := by rw [hrev]; exact List.mem_cons_self _ _
    exact List.mem_reverse.1 h0
  rw [← List.cons_append, List.reverse_append, dropWhile_append_all _ (fun x hx =>
    h2 x (List.mem_reverse.1 hx)), hrev, List.dropWhile_cons,
    if_neg (by simp [hd e he]), ← hrev, List.reverse_reverse]

theorem pyDigitsRest_of_all {l : Str} (h : ∀ c ∈ l, c.isDigit = true) :
    pyDigitsRest l = true := by
  induction l with
  | nil => rfl
  | cons c rest ih =>
    have hc := h c (List.mem_cons_self c rest)
    rw [pyDigitsRest.eq_def]
    simp only [hc, if_true]
    exact ih fun d hd => h d (List.mem_cons_of_mem c hd)

theorem pyInt_digits {d : Str} (hne : d ≠ []) (h : ∀ c ∈ d, c ∈ digitChars) :
    pyInt d = some ((digitsVal d : Int)) := by
  have hstrip : pyStrip d = d := by
    have h0 : ∀ c ∈ ([] : Str), pyIsWs c = true := by simp
    have := pyStrip_sandwich h0 h0 hne (fun c hc => digit_not_ws (h c hc))
    simpa using this
  obtain ⟨c, d', rfl⟩ := List.exists_cons_of_ne_nil hne
  have hc := digit_ne_sign (h c (List.mem_cons_self c d'))
  have hdig : pyDigits (c :: d') = true := by
    simp only [pyDigits, digit_isDigit (h c (List.mem_cons_self c d')), Bool.true_and]
    exact pyDigitsRest_of_all fun x hx => digit_isDigit (h x (List.mem_cons_of_mem c hx))
  unfold pyInt
  simp only [hstrip]
  rw [if_neg hc.1, if_neg hc.2, if_pos hdig]

theorem pyLower_append (a b : Str) : pyLower (a ++ b) = pyLower a ++ pyLower b :=
  List.map_append _ _ _

theorem pyLower_fixed {l : Str} (h : ∀ c ∈ l, c.toLower = c) : pyLower l = l := by
  induction l with
  | nil => rfl
  | cons c rest ih =>
    simp only [pyLower, List.map_cons] at ih ⊢
    rw [h c (List.mem_cons_self c rest), ih fun d hd => h d (List.mem_cons_of_mem c hd)]

theorem pyLower_ws {w : Str} (hw : SpecWs w) : pyLower w = w :=
  pyLower_fixed fun c hc => ws_toLower (hw c hc)

theorem ws_all {w : Str} (hw : SpecWs w) : ∀ c ∈ w, pyIsWs c = true :=
  fun c hc => ws_isWs (hw c hc)

/-- Every string of the spec shape is parsed by the code to exactly the
two integers of the shape. -/
theorem usageShape_parse {s : Str} {n m : Nat} (hs : UsageShape s n m) :
    parseBasePlanUsage s = some ((n : Int), (m : Int)) := by
  obtain ⟨w0, dN, w1, g1, w2, o, w3, dM, w4, g2, w5, u, w6, rfl,
    hw0, hdN, hw1, hg1, hw2, ho, hw3, hdM, hw4, hg2, hw5, hu, hw6, hn, hm⟩ := hs
  obtain ⟨hdN0, hdNd⟩ := hdN
  obtain ⟨hdM0, hdMd⟩ := hdM
  have hgb : ("gb".data : Str) = 'g' :: 'b' :: [] := rfl
  have hof : ("of".data : Str) = 'o' :: 'f' :: [] := rfl
  have hlow : pyLower (w0 ++ dN ++ w1 ++ g1 ++ w2 ++ o ++ w3 ++ dM ++ w4 ++ g2 ++ w5 ++ u ++ w6)
      = w0 ++ dN ++ w1 ++ "gb".data ++ w2 ++ "of".data ++ w3 ++ dM ++ w4 ++
        "gb".data ++ w5 ++ "used".data ++ w6 := by
    simp only [pyLower_append]
    rw [pyLower_ws hw0, pyLower_ws hw1, pyLower_ws hw2, pyLower_ws hw3, pyLower_ws hw4,
      pyLower_ws hw5, pyLower_ws hw6, hg1, hg2, ho, hu,
      pyLower_fixed fun c hc => digit_toLower (hdNd c hc),
      pyLower_fixed fun c hc => digit_toLower (hdMd c hc)]
  have noO_ws : ∀ {w : Str}, SpecWs w → 'o' ∉ w :=
    fun hw => not_mem_of_subset hw (by decide)
  have noG_ws : ∀ {w : Str}, SpecWs w → 'g' ∉ w :=
    fun hw => not_mem_of_subset hw (by decide)
  have noO_dN : 'o' ∉ dN := not_mem_of_subset hdNd (by decide)
  have noO_dM : 'o' ∉ dM := not_mem_of_subset hdMd (by decide)
  have noG_dN : 'g' ∉ dN := not_mem_of_subset hdNd (by decide)
  have noG_dM : 'g' ∉ dM := not_mem_of_subset hdMd (by decide)
  have hsplit : split2 'o' 'f'
      (w0 ++ dN ++ w1 ++ "gb".data ++ w2 ++ "of".data ++ w3 ++ dM ++ w4 ++
        "gb".data ++ w5 ++ "used".data ++ w6)
      = (w0 ++ dN ++ w1 ++ "gb".data ++ w2) ::
        [w3 ++ dM ++ w4 ++ "gb".data ++ w5 ++ "used".data ++ w6] := by
    have e1 : w0 ++ dN ++ w1 ++ "gb".data ++ w2 ++ "of".data ++ w3 ++ dM ++ w4 ++
          "gb".data ++ w5 ++ "used".data ++ w6
        = (w0 ++ dN ++ w1 ++ "gb".data ++ w2) ++
          'o' :: 'f' :: (w3 ++ dM ++ w4 ++ "gb".data ++ w5 ++ "used".data ++ w6) := by
      rw [hof]; simp [List.append_assoc]
    have hno1 : 'o' ∉ w0 ++ dN ++ w1 ++ "gb".data ++ w2 :=
      not_mem_append_chars (not_mem_append_chars (not_mem_append_chars
        (not_mem_append_chars (noO_ws hw0) noO_dN) (noO_ws hw1)) (by decide)) (noO_ws hw2)
    have hno2 : 'o' ∉ w3 ++ dM ++ w4 ++ "gb".data ++ w5 ++ "used".data ++ w6 :=
      not_mem_append_chars (not_mem_append_chars (not_mem_append_chars (not_mem_append_chars
        (not_mem_append_chars (not_mem_append_chars (noO_ws hw3) noO_dM) (noO_ws hw4))
        (by decide)) (noO_ws hw5)) (by decide)) (noO_ws hw6)
    rw [e1, split2_append _ hno1, split2_not_mem _ hno2]
  have hrepl : replace2 'g' 'b' [] (w0 ++ dN ++ w1 ++ "gb".data ++ w2)
      = w0 ++ dN ++ (w1 ++ w2) := by
    have e2 : w0 ++ dN ++ w1 ++ "gb".data ++ w2 = (w0 ++ dN ++ w1) ++ 'g' :: 'b' :: w2 := by
      rw [hgb]; simp [List.append_assoc]
    have hno : 'g' ∉ w0 ++ dN ++ w1 :=
      not_mem_append_chars (not_mem_append_chars (noG_ws hw0) noG_dN) (noG_ws hw1)
    rw [e2, replace2_append _ _ hno, replace2_not_mem _ _ (noG_ws hw2)]
    simp [List.append_assoc]
  have hstrip1 : pyStrip (w0 ++ dN ++ (w1 ++ w2)) = dN :=
    pyStrip_sandwich (ws_all hw0) (all_ws_append (ws_all hw1) (ws_all hw2)) hdN0
      (fun c hc => digit_not_ws (hdNd c hc))
  have hsplitgb : split2 'g' 'b' (w3 ++ dM ++ w4 ++ "gb".data ++ w5 ++ "used".data ++ w6)
      = (w3 ++ dM ++ w4) :: split2 'g' 'b' (w5 ++ "used".data ++ w6) := by
    have e3 : w3 ++ dM ++ w4 ++ "gb".data ++ w5 ++ "used".data ++ w6
        = (w3 ++ dM ++ w4) ++ 'g' :: 'b' :: (w5 ++ "used".data ++ w6) := by
      rw [hgb]; simp [List.append_assoc]
    have hno : 'g' ∉ w3 ++ dM ++ w4 :=
      not_mem_append_chars (not_mem_append_chars (noG_ws hw3) noG_dM) (noG_ws hw4)
    rw [e3, split2_append _ hno]
  have hstrip2 : pyStrip (w3 ++ dM ++ w4) = dM :=
    pyStrip_sandwich (ws_all hw3) (ws_all hw4) hdM0 (fun c hc => digit_not_ws (hdMd c hc))
  have hint1 : pyInt dN = some ((digitsVal dN : Int)) := pyInt_digits hdN0 hdNd
  have hint2 : pyInt dM = some ((digitsVal dM : Int)) := pyInt_digits hdM0 hdMd
  unfold parseBasePlanUsage
  rw [hlow, hsplit]
  simp only [hrepl, hstrip1, hsplitgb, List.headD_cons, hstrip2, hint1, hint2, hn, hm]

/-! ## Last-colon and label lemmas (footer total) -/

theorem exists_first_split {a : Char} {l : Str} (h : a ∈ l) :
    ∃ s t, l = s ++ a :: t ∧ a ∉ s := by
  induction l with
  | nil => cases h
  | cons c rest ih =>
    by_cases hc : c = a
    · exact ⟨[], rest, by simp [hc], by simp⟩
    · rcases List.mem_cons.1 h with h1 | h1
      · exact absurd h1.symm hc
      · obtain ⟨s, t, hst, hns⟩ := ih h1
        refine ⟨c :: s, t, by rw [List.cons_append, hst], ?_⟩
        intro hm
        rcases List.mem_cons.1 hm with h2 | h2
        · exact hc h2.symm
        · exact hns h2

theorem split1_getLastD {a : Char} {v : Str} (hv : a ∉ v) :
    ∀ len u d, u.length ≤ len → (split1 a (u ++ a :: v)).getLastD d = v := by
  intro len
  induction len with
  | zero =>
    intro u d hlen
    have hu : u = [] := List.length_eq_zero.1 (Nat.le_zero.1 hlen)
    subst hu
    rw [List.nil_append, split1, if_pos rfl, split1_not_mem hv,
      List.getLastD_cons, List.getLastD_cons]
    simp
  | succ len ih =>
    intro u d hlen
    by_cases hmem : a ∈ u
    · obtain ⟨s, t, rfl, hns⟩ := exists_first_split hmem
      have e : (s ++ a :: t) ++ a :: v = s ++ a :: (t ++ a :: v) := by
        simp [List.append_assoc]
      rw [e, split1_append _ hns, List.getLastD_cons]
      have hlen2 : t.length ≤ len := by
        simp [List.length_append] at hlen; omega
      exact ih t s hlen2
    · rw [split1_append _ hmem, split1_not_mem hv, List.getLastD_cons, List.getLastD_cons]
      simp

theorem drop_len_append (l₁ l₂ : Str) : (l₁ ++ l₂).drop l₁.length = l₂ := by
  induction l₁ with
  | nil => simp
  | cons c rest ih => simp [ih]

theorem valueAfterLabel_decomp {pat t v : Str} (h : valueAfterLabel pat t = some v) :
    ∃ pre, t = pre ++ pat ++ v := by
  induction t with
  | nil =>
    unfold valueAfterLabel at h
    by_cases hp : pat.isEmpty
    · rw [if_pos hp] at h
      obtain rfl : ([] : Str) = v := Option.some.inj h
      exact ⟨[], by simp [List.isEmpty_iff.1 hp]⟩
    · rw [if_neg hp] at h; cases h
  | cons c rest ih =>
    unfold valueAfterLabel at h
    by_cases hp : pat.isPrefixOf (c :: rest) = true
    · rw [if_pos hp] at h
      obtain ⟨w, hw⟩ := isPrefixOf_exists hp
      obtain rfl : (c :: rest).drop pat.length = v := Option.some.inj h
      refine ⟨[], ?_⟩
      rw [hw, drop_len_append]
      simp
    · rw [if_neg hp] at h
      obtain ⟨pre, hpre⟩ := ih h
      exact ⟨c :: pre, by simp [hpre]⟩

theorem valueAfterLabel_contains {pat t v : Str} (h : valueAfterLabel pat t = some v) :
    containsSub pat t = true := by
  induction t with
  | nil =>
    unfold valueAfterLabel at h
    by_cases hp : pat.isEmpty
    · simp [containsSub, hp]
    · rw [if_neg hp] at h; cases h
  | cons c rest ih =>
    unfold valueAfterLabel at h
    by_cases hp : pat.isPrefixOf (c :: rest) = true
    · simp [containsSub, hp]
    · rw [if_neg hp] at h
      simp [containsSub, ih h]

/-! ## filterMap characterization (row loops) -/

theorem filterMap_guard {α β : Type} (p : α → Bool) (f : α → β) (l : List α) :
    (l.filterMap fun x => if p x then some (f x) else none) = (l.filter p).map f := by
  induction l with
  | nil => rfl
  | cons x xs ih =>
    by_cases hx : p x = true
    · simp [List.filterMap_cons, List.filter_cons, hx, ih]
    · simp [List.filterMap_cons, List.filter_cons, hx, ih]

/-! ## Decidability bridges for the spec-side predicates -/

theorem specWs_of_all {w : Str} (h : (w.all fun c => decide (c ∈ wsChars)) = true) :
    SpecWs w :=
  fun c hc => of_decide_eq_true (List.all_eq_true.1 h c hc)

theorem specDigits_of_all {d : Str} (h0 : d ≠ [])
    (h : (d.all fun c => decide (c ∈ digitChars)) = true) : SpecDigits d :=
  ⟨h0, fun c hc => of_decide_eq_true (List.all_eq_true.1 h c hc)⟩

/-- The staged key list agrees with the success-pair view of the same
parsing block: joint success assigns both keys, and on any failure the
total key is never assigned (though the used key may be). -/
theorem imagineUsageKeys_parseBasePlan (s : Str) :
    (∀ u t, parseBasePlanUsage s = some (u, t) →
      imagineUsageKeys s =
        [("base_plan_used_gb", JVal.int u), ("base_plan_total_gb", JVal.int t)]) ∧
    (parseBasePlanUsage s = none →
      lookupAssoc "base_plan_total_gb" (imagineUsageKeys s) = none) := by
  unfold parseBasePlanUsage imagineUsageKeys
  cases hsp : split2 'o' 'f' (pyLower s) with
  | nil => exact ⟨(fun u t h => by cases h), (fun h => by simp [lookupAssoc])⟩
  | cons p0 rest =>
    cases rest with
    | nil => exact ⟨(fun u t h => by cases h), (fun h => by simp [lookupAssoc])⟩
    | cons p1 ps =>
      dsimp only
      cases hu : pyInt (pyStrip (replace2 'g' 'b' [] p0)) with
      | none => exact ⟨(fun u t h => by cases h), (fun h => by simp [lookupAssoc])⟩
      | some u =>
        cases ht : pyInt (pyStrip ((split2 'g' 'b' p1).headD [])) with
        | none =>
          refine ⟨(fun u2 t2 h => by cases h), (fun h => by simp [lookupAssoc])⟩
        | some t =>
          refine ⟨(fun u2 t2 h => ?_), (fun h => by cases h)⟩
          obtain ⟨rfl, rfl⟩ : u = u2 ∧ t = t2 := by
            have := Option.some.inj h
            exact ⟨congrArg Prod.fst this, congrArg Prod.snd this⟩
          rfl

/-! ## Claim theorems -/

/-- C1 (amended): every usage string matching the shape
`"<N>GB of <M> GB Used"` is parsed to exactly the integer pair (N, M)
and published with the timestamp; whenever the parse fails the MQTT
publish is skipped and `base_plan_total_gb` is never produced (likewise
when no usage string was scraped).  Two parts of the claim fail on the
code (see the counterexample): non-matching strings can still parse —
the parser accepts a proper superset of the shape — and a failure at
the second `int()` conversion leaves the already-assigned
`base_plan_used_gb` in the payload, so a failing parse can still
produce a numeric value. -/
theorem imagine_usage_parse_corrected :
    (∀ s n m ts, UsageShape s n m →
      parseBasePlanUsage s = some ((n : Int), (m : Int)) ∧
      buildImagineMqttPayload (some s) ts =
        ([("base_plan_used_gb", JVal.int n), ("base_plan_total_gb", JVal.int m),
          ("mqtt_timestamp", JVal.str ts)], true)) ∧
    (∀ s ts, parseBasePlanUsage s = none →
      (buildImagineMqttPayload (some s) ts).2 = false ∧
      lookupAssoc "base_plan_total_gb" (buildImagineMqttPayload (some s) ts).1 = none) ∧
    (∀ ts, buildImagineMqttPayload none ts = ([], false)) := by
  refine ⟨?_, ?_, ?_⟩
  · intro s n m ts hs
    have hp := usageShape_parse hs
    refine ⟨hp, ?_⟩
    have hk := (imagineUsageKeys_parseBasePlan s).1 _ _ hp
    simp [buildImagineMqttPayload, hk, lookupAssoc]
  · intro s ts h
    have hb := (imagineUsageKeys_parseBasePlan s).2 h
    constructor
    · simp [buildImagineMqttPayload, hb]
    · simp [buildImagineMqttPayload, hb]
  · intro ts
    simp [buildImagineMqttPayload, lookupAssoc]

/-- C1 witness: the documented example string parses to (139, 700) and
is published with the timestamp, and a failing parse skips the publish
without producing a total key. -/
theorem imagine_usage_parse_corrected_witness :
    (parseBasePlanUsage "139GB of 700 GB Used".data = some (139, 700) ∧
      buildImagineMqttPayload (some "139GB of 700 GB Used".data) "T".data =
        ([("base_plan_used_gb", JVal.int 139), ("base_plan_total_gb", JVal.int 700),
          ("mqtt_timestamp", JVal.str "T".data)], true)) ∧
    ((buildImagineMqttPayload (some "garbage".data) "T".data).2 = false ∧
      lookupAssoc "base_plan_total_gb"
        (buildImagineMqttPayload (some "garbage".data) "T".data).1 = none) := by
  constructor
  · exact imagine_usage_parse_corrected.1 "139GB of 700 GB Used".data 139 700 "T".data
      ⟨[], "139".data, [], "GB".data, [' '], "of".data, [' '], "700".data, [' '],
        "GB".data, [' '], "Used".data, [],
        by decide, specWs_of_all (by decide), specDigits_of_all (by decide) (by decide),
        specWs_of_all (by decide), by decide, specWs_of_all (by decide), by decide,
        specWs_of_all (by decide), specDigits_of_all (by decide) (by decide),
        specWs_of_all (by decide), by decide, specWs_of_all (by decide), by decide,
        specWs_of_all (by decide), by decide, by decide⟩
  · exact imagine_usage_parse_corrected.2.1 "garbage".data "T".data (by decide)

/-- C1 counterexample, two instances.  First: `"10 of 20"` does not
match the shape (it contains no letter g at all), yet the parser
returns (10, 20) instead of failing, so "every non-matching string
reports MalformedInput" is false.  Second: `"139GB of xyz GB Used"`
fails to parse, yet the payload is not empty — `int(used_part)` was
already assigned to `base_plan_used_gb` before `int('xyz')` raised — so
"no numeric values are produced" on failure is also false (the publish
is still skipped). -/
theorem imagine_usage_parse_claim_counterexample :
    (parseBasePlanUsage "10 of 20".data = some (10, 20) ∧
      ¬ ∃ n m, UsageShape "10 of 20".data n m) ∧
    (parseBasePlanUsage "139GB of xyz GB Used".data = none ∧
      buildImagineMqttPayload (some "139GB of xyz GB Used".data) "T".data =
        ([("base_plan_used_gb", JVal.int 139)], false)) := by
  refine ⟨⟨?_, ?_⟩, by decide, by decide⟩
  · decide
  · rintro ⟨n, m, w0, dN, w1, g1, w2, o, w3, dM, w4, g2, w5, u, w6, hs,
      hw0, hdN, hw1, hg1, hw2, ho, hw3, hdM, hw4, hg2, hw5, hu, hw6, hn, hm⟩
    have hg : 'g' ∈ pyLower ("10 of 20".data) := by
      rw [hs]
      simp only [pyLower_append]
      have hg1m : 'g' ∈ pyLower g1 := by rw [hg1]; decide
      simp [List.mem_append, hg1m]
    revert hg
    decide

/-- C3 (code bug): `publish_usms_json` and `publish_imagine_json` are
`pass` stubs, so for every prepared payload zero MQTT messages are sent
— there is no qos-1 delivery and no acknowledgment wait at all — the
return value is Python's None, and the callers' truthiness test
(`if publish_..._json(payload):`) therefore reports failure every
time. -/
theorem publish_operations_unimplemented :
    ∀ payload : List (String × JVal),
      (publish_usms_json payload).messagesSent = 0 ∧
      (publish_imagine_json payload).messagesSent = 0 ∧
      (publish_usms_json payload).returned = none ∧
      (publish_imagine_json payload).returned = none ∧
      pyTruthyReturn (publish_usms_json payload).returned = false ∧
      pyTruthyReturn (publish_imagine_json payload).returned = false :=
  fun payload => ⟨rfl, rfl, rfl, rfl, rfl, rfl⟩

/-- C4 (code bug): the Imagine MQTT payload assembled for the example
usage string carries exactly the two parsed numeric keys and the
timestamp — no `*_raw` field accompanies the numeric fields, although
mqtt_publisher.py's own payload documentation shows
`base_plan_usage_raw` alongside them. -/
theorem imagine_payload_missing_raw :
    buildImagineMqttPayload (some "139GB of 700 GB Used".data)
        "2025-06-07T13:45:30+08:00".data
      = ([("base_plan_used_gb", JVal.int 139), ("base_plan_total_gb", JVal.int 700),
          ("mqtt_timestamp", JVal.str "2025-06-07T13:45:30+08:00".data)], true) ∧
    "base_plan_usage_raw" ∉
      (buildImagineMqttPayload (some "139GB of 700 GB Used".data)
        "2025-06-07T13:45:30+08:00".data).1.map Prod.fst ∧
    ∀ k ∈ (buildImagineMqttPayload (some "139GB of 700 GB Used".data)
        "2025-06-07T13:45:30+08:00".data).1.map Prod.fst,
      containsSub "_raw".data k.data = false :=
  ⟨by decide, by decide, by decide⟩

/-- C2 (code bug): `_parse_date_string` is a `pass` stub, so the
program never produces the ISO date the function's own docstring
documents ("Expiry: 18 Jun 2025" -> "2025-06-18"): every input yields
None; and `publish_imagine_json` (also `pass`) attaches no expiry field
at all to the published payload, not even the raw string. -/
theorem expiry_normalizer_unimplemented :
    parse_date_string "Expiry: 18 Jun 2025".data = none ∧
    parse_date_string "Expiry: 18 Jun 2025".data ≠ some "2025-06-18".data ∧
    (∀ s, parse_date_string s = none) ∧
    (∀ s, imagineExpiryFields s = []) :=
  ⟨rfl, by simp [parse_date_string], fun s => rfl, fun s => rfl⟩

/-- C5 (amended): when the footer cell lacks the `"Total units:"` label
the total stays unset; when it carries the label, the code returns the
text after the LAST colon of the cell, stripped — which coincides with
the value after the label exactly when that value contains no further
colon (the counterexample shows the divergence otherwise). -/
theorem footer_total_last_colon_amended : ∀ h t : Str,
    (containsSub totalUnitsLabel t = false → extractFooterTotal [h, t] = none) ∧
    (containsSub totalUnitsLabel t = true →
      extractFooterTotal [h, t] = some (pyStrip ((split1 ':' t).getLastD []))) ∧
    (∀ v, valueAfterLabel totalUnitsLabel t = some v → ':' ∉ v →
      extractFooterTotal [h, t] = some (pyStrip v)) := by
  intro h t
  refine ⟨?_, ?_, ?_⟩
  · intro hc
    simp [extractFooterTotal, hc]
  · intro hc
    simp [extractFooterTotal, hc]
  · intro v hv hcolon
    have hc := valueAfterLabel_contains hv
    obtain ⟨pre, hpre⟩ := valueAfterLabel_decomp hv
    have hlabel : totalUnitsLabel = "Total units".data ++ [':'] := by decide
    have ht : t = (pre ++ "Total units".data) ++ ':' :: v := by
      rw [hpre, hlabel]
      simp [List.append_assoc]
    have hlast : (split1 ':' t).getLastD [] = v := by
      rw [ht]
      exact split1_getLastD hcolon (pre ++ "Total units".data).length
        (pre ++ "Total units".data) [] le_rfl
    simp [extractFooterTotal, hc, hlast]
    rw [← List.getLastD_eq_getLast?, hlast]

/-- C5 witness: the documented example `"Total units: 18.240"` yields
`"18.240"`. -/
theorem footer_total_last_colon_witness :
    extractFooterTotal ["x".data, "Total units: 18.240".data] = some "18.240".data := by
  have h := (footer_total_last_colon_amended "x".data "Total units: 18.240".data).2.2
    " 18.240".data (by decide) (by decide)
  rw [h]
  decide

/-- C5 counterexample: for the cell text `"Total units: 12:30"` the
value after the label is `"12:30"` (stripped), but the code returns
only `"30"` — the text after the LAST colon — so "returns the value
part after the label" fails when the value contains a colon. -/
theorem footer_total_value_after_label_counterexample :
    valueAfterLabel totalUnitsLabel "Total units: 12:30".data = some " 12:30".data ∧
    pyStrip " 12:30".data = "12:30".data ∧
    extractFooterTotal ["x".data, "Total units: 12:30".data] = some "30".data ∧
    "30".data ≠ "12:30".data :=
  ⟨by decide, by decide, by decide, by decide⟩

/-- C6 (amended): the table extractor is a total function of the page
state (no exception escapes): an absent table root yields the empty
row list with the total unset, and a failure at the footer stage
(footer table or footer row absent) yields the rows collected so far —
possibly non-empty, contrary to the claim's "empty sequence" for every
failure — with the total unset. -/
theorem table_scrape_failure_amended : ∀ page : UsmsTablePage,
    (page.mainRows = none → scrape_data_from_table page = ([], none)) ∧
    (∀ rows, page.mainRows = some rows → page.footerRow = none →
      scrape_data_from_table page = (extractHourlyRows rows, none)) ∧
    (∀ rows, page.mainRows = some rows → page.footerRow = some none →
      scrape_data_from_table page = (extractHourlyRows rows, none)) := by
  intro page
  refine ⟨fun h => by simp [scrape_data_from_table, h], ?_, ?_⟩
  · intro rows h1 h2
    simp [scrape_data_from_table, h1, h2]
  · intro rows h1 h2
    simp [scrape_data_from_table, h1, h2]

/-- C6 witness: with the table root absent the extractor returns the
empty row list and no total. -/
theorem table_scrape_failure_amended_witness :
    scrape_data_from_table ⟨none, none⟩ = ([], none) :=
  (table_scrape_failure_amended ⟨none, none⟩).1 rfl

/-- C6 counterexample: a failure after rows were collected (footer
table absent after its wait) returns the non-empty rows gathered so
far, not an empty sequence. -/
theorem table_scrape_empty_on_failure_counterexample :
    scrape_data_from_table ⟨some [["00:00".data, "1.5".data]], none⟩
      = ([(⟨"00:00".data, "1.5".data⟩ : HourlyReading)], none) ∧
    ([(⟨"00:00".data, "1.5".data⟩ : HourlyReading)] : List HourlyReading) ≠ [] :=
  ⟨by decide, by decide⟩

/-- C7: the extracted readings are exactly the two-cell rows, in table
order, each mapped to its (hour, consumption) pair; and a row with any
other cell count is dropped without aborting the rows after it. -/
theorem hourly_rows_two_cell_filter :
    (∀ rows ft, (scrape_data_from_table ⟨some rows, ft⟩).1 =
      ((rows.filter fun r => r.length == 2).map fun r =>
        (⟨r.headD [], (r.drop 1).headD []⟩ : HourlyReading))) ∧
    (∀ pre bad post, bad.length ≠ 2 →
      extractHourlyRows (pre ++ bad :: post) =
        extractHourlyRows pre ++ extractHourlyRows post) := by
  constructor
  · intro rows ft
    have h := filterMap_guard (fun r : List Str => r.length == 2)
      (fun r => (⟨r.headD [], (r.drop 1).headD []⟩ : HourlyReading)) rows
    cases ft with
    | none => simpa [scrape_data_from_table, extractHourlyRows] using h
    | some o =>
      cases o with
      | none => simpa [scrape_data_from_table, extractHourlyRows] using h
      | some cols => simpa [scrape_data_from_table, extractHourlyRows] using h
  · intro pre bad post hbad
    unfold extractHourlyRows
    rw [List.filterMap_append, List.filterMap_cons]
    have hb : (bad.length == 2) = false := by simpa using hbad
    simp [hb]

/-- C7 witness: a one-cell row between two two-cell rows is dropped and
the rows after it are still extracted. -/
theorem hourly_rows_two_cell_filter_witness :
    extractHourlyRows ([["00".data, "1.5".data]] ++ ["junk".data] ::
        [["01".data, "2.5".data]]) =
      extractHourlyRows [["00".data, "1.5".data]] ++
        extractHourlyRows [["01".data, "2.5".data]] :=
  hourly_rows_two_cell_filter.2 [["00".data, "1.5".data]] ["junk".data]
    [["01".data, "2.5".data]] (by decide)

/-- C8: when the slot-1 existence probe finds no water card, the meter
result set has no "water" key at all, the assembled workbook has no
"Water Meter" sheet, and the absence is no error: the electricity entry
is present exactly when its own probe succeeds inside a reachable
frame. -/
theorem water_absent_no_key : ∀ (pg : MeterPage) (ts : Str)
    (hourly : List HourlyReading) (total : Option Str)
    (dyn : List (String × Option Str)), pg.card1 = false →
    lookupAssoc "water" (scrape_all_meters pg ts) = none ∧
    (∀ sheets, export_usms_sheets hourly total dyn (scrape_all_meters pg ts) = some sheets →
      "Water Meter" ∉ sheets) ∧
    (lookupAssoc "electricity" (scrape_all_meters pg ts)).isSome =
      (pg.frameOk && pg.card0) := by
  intro pg ts hourly total dyn h1
  have hmeters : lookupAssoc "water" (scrape_all_meters pg ts) = none := by
    unfold scrape_all_meters
    by_cases hf : pg.frameOk
    · by_cases h0 : pg.card0 <;> simp [hf, h0, h1, lookupAssoc]
    · simp [hf, lookupAssoc]
  refine ⟨hmeters, ?_, ?_⟩
  · intro sheets hsheets
    unfold export_usms_sheets at hsheets
    by_cases hcond : (hourly.isEmpty && (scrape_all_meters pg ts).isEmpty) = true
    · rw [if_pos hcond] at hsheets
      cases hsheets
    · rw [if_neg hcond] at hsheets
      have hs := (Option.some.inj hsheets).symm
      subst hs
      simp only [hmeters, Option.isSome_none, if_false, List.append_nil]
      by_cases h2 : (pyTruthyOptStr total || !dyn.isEmpty) = true <;>
        by_cases h3 : (lookupAssoc "electricity" (scrape_all_meters pg ts)).isSome = true <;>
          simp [h2, h3]
  · unfold scrape_all_meters
    by_cases hf : pg.frameOk
    · by_cases h0 : pg.card0 <;> simp [hf, h0, h1, lookupAssoc]
    · simp [hf, lookupAssoc]

/-- C8 witness: a page with only the electricity card yields a meter
set whose keys are exactly ["electricity"]. -/
theorem water_absent_no_key_witness :
    lookupAssoc "water"
        (scrape_all_meters ⟨true, true, false, fun _ _ => none⟩ "T".data) = none ∧
    (lookupAssoc "electricity"
        (scrape_all_meters ⟨true, true, false, fun _ _ => none⟩ "T".data)).isSome =
      (true && true) :=
  ⟨(water_absent_no_key ⟨true, true, false, fun _ _ => none⟩ "T".data [] none [] rfl).1,
   (water_absent_no_key ⟨true, true, false, fun _ _ => none⟩ "T".data [] none [] rfl).2.2⟩

/-- C9: a parsed credentials file whose content lacks the "mqtt" key,
or whose "mqtt" object lacks one of the required keys (broker, port,
username, password, base_topic), makes `load_mqtt_config` return no
configuration, and `test_mqtt_connection` then returns failure with
zero connection attempts. -/
theorem mqtt_config_missing_key_aborts :
    ∀ (creds : List (String × List (String × JsonPrim))) (connectOk : Bool),
    (lookupAssoc "mqtt" creds = none ∨
      ∃ kvs, lookupAssoc "mqtt" creds = some kvs ∧
        ∃ k ∈ requiredMqttKeys, lookupAssoc k kvs = none) →
    load_mqtt_config (CredFile.ok creds) = none ∧
    test_mqtt_connection (CredFile.ok creds) connectOk = (false, 0) := by
  intro creds connectOk h
  have hload : load_mqtt_config (CredFile.ok creds) = none := by
    unfold load_mqtt_config
    rcases h with h | ⟨kvs, hkvs, k, hk, hnone⟩
    · simp [h]
    · simp only [hkvs]
      by_cases he : kvs.isEmpty = true
      · simp [he]
      · have hall : ¬ (requiredMqttKeys.all fun k2 => (lookupAssoc k2 kvs).isSome) = true := by
          intro hcon
          have h2 := List.all_eq_true.1 hcon k hk
          rw [hnone] at h2
          simp at h2
        simp [he, hall]
  exact ⟨hload, by simp [test_mqtt_connection, hload]⟩

/-- C9 witness: a credentials file with no "mqtt" key loads no
configuration and triggers no connection attempt. -/
theorem mqtt_config_missing_key_aborts_witness :
    load_mqtt_config (CredFile.ok [("USMS", [("username", JsonPrim.str "u")])]) = none ∧
    test_mqtt_connection (CredFile.ok [("USMS", [("username", JsonPrim.str "u")])]) true
      = (false, 0) :=
  mqtt_config_missing_key_aborts [("USMS", [("username", JsonPrim.str "u")])] true
    (Or.inl (by decide))

/-- C10: V2's meter-card extraction is extensionally equal to V1's,
while V2's table extraction returns mock data: the readings are exactly
the two-cell rows each replaced by the synthetic label "Hour i+1" (from
the row's enumeration index) with consumption "0.000" independent of
the cell text, and a two-cell footer yields the mock total "0.000"
(any other footer cell count leaves it unset). -/
theorem v2_mock_table_refinement :
    (∀ pg idx, scrape_meter_data_v2 pg idx = scrape_meter_data pg idx) ∧
    (∀ rows ft, (scrape_data_from_table_v2 ⟨some rows, ft⟩).1 =
      ((rows.enum.filter fun p => p.2.length == 2).map fun p =>
        (⟨"Hour ".data ++ (Nat.repr (p.1 + 1)).data, "0.000".data⟩ : HourlyReading))) ∧
    (∀ rows h c, (scrape_data_from_table_v2 ⟨some rows, some (some [h, c])⟩).2 =
      some "0.000".data) ∧
    (∀ rows cols, cols.length ≠ 2 →
      (scrape_data_from_table_v2 ⟨some rows, some (some cols)⟩).2 = none) := by
  refine ⟨fun pg idx => rfl, ?_, ?_, ?_⟩
  · intro rows ft
    have h := filterMap_guard (fun p : Nat × List Str => p.2.length == 2)
      (fun p => (⟨"Hour ".data ++ (Nat.repr (p.1 + 1)).data, "0.000".data⟩ : HourlyReading))
      rows.enum
    cases ft with
    | none => simpa [scrape_data_from_table_v2] using h
    | some o =>
      cases o with
      | none => simpa [scrape_data_from_table_v2] using h
      | some cols => simpa [scrape_data_from_table_v2] using h
  · intro rows h c
    simp [scrape_data_from_table_v2]
  · intro rows cols hcols
    have hb : (cols.length == 2) = false := by simpa using hcols
    simp [scrape_data_from_table_v2, hb]

/-- C10 witness: a three-cell footer leaves the V2 total unset, via the
general theorem. -/
theorem v2_mock_table_refinement_witness :
    (scrape_data_from_table_v2 ⟨some [], some (some ["a".data, "b".data, "c".data])⟩).2
      = none :=
  v2_mock_table_refinement.2.2.2 [] ["a".data, "b".data, "c".data] (by decide)

end ElectricMeterScraper
